import Mathlib

/-!
Verification of the IMD floppy-image decoder (`read.go`).

The byte stream is modelled as a `List Nat` (each entry a byte value).
Reads follow the semantics of Go's `bytes.Reader`: a `Read` into a buffer
returns an error (io.EOF) exactly when it begins at an exhausted stream;
otherwise it copies as many bytes as are available and leaves the rest of
the zero-initialised buffer untouched (the decoder ignores the returned
count `n`, so partially filled, zero-padded buffers are accepted).
-/

/-- One-byte read (`readByte` / `readBytePtr` in the source): fails iff the
stream is exhausted. -/
def readByte (s : List Nat) : Option (Nat × List Nat) :=
  match s with
  | [] => none
  | b :: t => some (b, t)

/-- `r.Read(buf)` for a zero-initialised buffer of length `n`, with
`bytes.Reader` semantics: io.EOF iff the stream is empty at the call,
otherwise up to `n` bytes are copied and the tail of the buffer keeps its
zero initialisation. -/
def readBuf (n : Nat) (s : List Nat) : Option (List Nat × List Nat) :=
  if s = [] then none
  else some (s.take n ++ List.replicate (n - s.length) 0, s.drop n)

/-- `readStringASCIIEOF`: accumulate bytes until the sentinel 0x1A (26),
which is consumed and excluded; returns (text, rest, success).  Reaching
end of stream first returns the partial text with `false` (the io.EOF
error in the source). -/
def readStringASCIIEOF (s : List Nat) : List Nat × List Nat × Bool :=
  match s with
  | [] => ([], [], false)
  | c :: t =>
    if c = 26 then ([], t, true)
    else
      let r := readStringASCIIEOF t
      (c :: r.1, r.2.1, r.2.2)

/-- `strings.SplitN(s, sep, 2)`: split at the first occurrence of `sep`;
`none` when `sep` does not occur (Go then yields a single part). -/
def splitFirst (sep : List Nat) : List Nat → Option (List Nat × List Nat)
  | [] => none
  | a :: t =>
    if sep <+: (a :: t) then some ([], (a :: t).drop sep.length)
    else (splitFirst sep t).map (fun p => (a :: p.1, p.2))

/-- Digits of `s` interpreted in base 10. -/
def digitsVal (s : List Nat) : Nat :=
  s.foldl (fun a c => a * 10 + (c - 48)) 0

/-- All bytes are ASCII decimal digits. -/
def allDigits (s : List Nat) : Bool :=
  s.all (fun c => 48 ≤ c && c ≤ 57)

/-- `strconv.Atoi`: optional sign (`+` is 43, `-` is 45) followed by at
least one digit. -/
def goAtoi (s : List Nat) : Option Int :=
  match s with
  | [] => none
  | c :: t =>
    if c = 43 then
      if t ≠ [] ∧ allDigits t then some (Int.ofNat (digitsVal t)) else none
    else if c = 45 then
      if t ≠ [] ∧ allDigits t then some (-(Int.ofNat (digitsVal t))) else none
    else
      if allDigits (c :: t) then some (Int.ofNat (digitsVal (c :: t))) else none

/-- Leap year rule used by Go's `time` package. -/
def isLeap (y : Nat) : Bool :=
  y % 4 = 0 && (y % 100 ≠ 0 || y % 400 = 0)

/-- `daysIn` from Go's `time` package. -/
def daysIn (m y : Nat) : Nat :=
  if m = 2 then (if isLeap y then 29 else 28)
  else if m = 4 ∨ m = 6 ∨ m = 9 ∨ m = 11 then 30
  else 31

/-- A parsed calendar timestamp (the components Go's `time.Parse` extracts
for the formats used by the source). -/
structure DateTime where
  year : Nat
  month : Nat
  day : Nat
  hour : Nat
  minute : Nat
  second : Nat
deriving DecidableEq, Repr

/-- `time.Parse("02/01/2006", s)`: fixed-width day/month/year with `/`
separators; Go rejects month outside 1..12 and day outside the month's
length.  Returns (day, month, year). -/
def goParseDate (s : List Nat) : Option (Nat × Nat × Nat) :=
  match s with
  | [d1, d2, a, m1, m2, b, y1, y2, y3, y4] =>
    if a = 47 ∧ b = 47 ∧
       48 ≤ d1 ∧ d1 ≤ 57 ∧ 48 ≤ d2 ∧ d2 ≤ 57 ∧
       48 ≤ m1 ∧ m1 ≤ 57 ∧ 48 ≤ m2 ∧ m2 ≤ 57 ∧
       48 ≤ y1 ∧ y1 ≤ 57 ∧ 48 ≤ y2 ∧ y2 ≤ 57 ∧
       48 ≤ y3 ∧ y3 ≤ 57 ∧ 48 ≤ y4 ∧ y4 ≤ 57 then
      let day := (d1 - 48) * 10 + (d2 - 48)
      let mon := (m1 - 48) * 10 + (m2 - 48)
      let yr := (((y1 - 48) * 10 + (y2 - 48)) * 10 + (y3 - 48)) * 10 + (y4 - 48)
      if 1 ≤ mon ∧ mon ≤ 12 ∧ 1 ≤ day ∧ day ≤ daysIn mon yr then
        some (day, mon, yr)
      else none
    else none
  | _ => none

/-- `time.Parse("15:04:05", s)`: fixed-width 24-hour time with `:`
separators; hour 0..23, minute 0..59, second 0..59.
Returns (hour, minute, second). -/
def goParseTime8 (s : List Nat) : Option (Nat × Nat × Nat) :=
  match s with
  | [h1, h2, a, n1, n2, b, e1, e2] =>
    if a = 58 ∧ b = 58 ∧
       48 ≤ h1 ∧ h1 ≤ 57 ∧ 48 ≤ h2 ∧ h2 ≤ 57 ∧
       48 ≤ n1 ∧ n1 ≤ 57 ∧ 48 ≤ n2 ∧ n2 ≤ 57 ∧
       48 ≤ e1 ∧ e1 ≤ 57 ∧ 48 ≤ e2 ∧ e2 ≤ 57 then
      let hr := (h1 - 48) * 10 + (h2 - 48)
      let mi := (n1 - 48) * 10 + (n2 - 48)
      let se := (e1 - 48) * 10 + (e2 - 48)
      if hr ≤ 23 ∧ mi ≤ 59 ∧ se ≤ 59 then some (hr, mi, se) else none
    else none
  | _ => none

/-- `time.Parse("02/01/2006 15:04:05", s)`: the combined format used by
`Header.Time`. -/
def goParseDateTime (s : List Nat) : Option DateTime :=
  match s with
  | [d1, d2, a, m1, m2, b, y1, y2, y3, y4, sp, h1, h2, c, n1, n2, e, x1, x2] =>
    if a = 47 ∧ b = 47 ∧ sp = 32 ∧ c = 58 ∧ e = 58 ∧
       48 ≤ d1 ∧ d1 ≤ 57 ∧ 48 ≤ d2 ∧ d2 ≤ 57 ∧
       48 ≤ m1 ∧ m1 ≤ 57 ∧ 48 ≤ m2 ∧ m2 ≤ 57 ∧
       48 ≤ y1 ∧ y1 ≤ 57 ∧ 48 ≤ y2 ∧ y2 ≤ 57 ∧
       48 ≤ y3 ∧ y3 ≤ 57 ∧ 48 ≤ y4 ∧ y4 ≤ 57 ∧
       48 ≤ h1 ∧ h1 ≤ 57 ∧ 48 ≤ h2 ∧ h2 ≤ 57 ∧
       48 ≤ n1 ∧ n1 ≤ 57 ∧ 48 ≤ n2 ∧ n2 ≤ 57 ∧
       48 ≤ x1 ∧ x1 ≤ 57 ∧ 48 ≤ x2 ∧ x2 ≤ 57 then
      let day := (d1 - 48) * 10 + (d2 - 48)
      let mon := (m1 - 48) * 10 + (m2 - 48)
      let yr := (((y1 - 48) * 10 + (y2 - 48)) * 10 + (y3 - 48)) * 10 + (y4 - 48)
      let hr := (h1 - 48) * 10 + (h2 - 48)
      let mi := (n1 - 48) * 10 + (n2 - 48)
      let se := (x1 - 48) * 10 + (x2 - 48)
      if 1 ≤ mon ∧ mon ≤ 12 ∧ 1 ≤ day ∧ day ≤ daysIn mon yr ∧
         hr ≤ 23 ∧ mi ≤ 59 ∧ se ≤ 59 then
        some ⟨yr, mon, day, hr, mi, se⟩
      else none
    else none
  | _ => none

/-- `type Header string`: the raw validated 29-byte signature line. -/
abbrev Header := List Nat

/-- `Header.Version`: the substring `h[4:8]`. -/
def Header.Version (h : Header) : List Nat :=
  (h.drop 4).take 4

/-- `Header.Time`: parse `h[10:]` with format `02/01/2006 15:04:05`. -/
def Header.Time (h : Header) : Option DateTime :=
  goParseDateTime (h.drop 10)

/-- Distinct failure reasons of `validateHeader`, one per `errors.New`
site in the source. -/
inductive HeaderError where
  | noIMDPrefix
  | missingSeparator
  | badVersionFormat
  | badMajorVersion
  | badMinorVersion
  | badDateTimeLength
  | badDateTimeSplit
  | badDateFormat
  | badDateValues
  | badTimeFormat
  | badTimeValues
deriving DecidableEq, Repr

/-- The date/time half of `validateHeader` (source lines 206-229), on the
two halves of the datetime part. -/
def validateDateTime (date timeStr : List Nat) : Option HeaderError :=
  if 32 ∈ timeStr then some .badDateTimeSplit
  else if date.length ≠ 10 ∨ date.getD 2 0 ≠ 47 ∨ date.getD 5 0 ≠ 47 then
    some .badDateFormat
  else if goParseDate date = none then some .badDateValues
  else if timeStr.length ≠ 8 ∨ timeStr.getD 2 0 ≠ 58 ∨ timeStr.getD 5 0 ≠ 58 then
    some .badTimeFormat
  else if goParseTime8 timeStr = none then some .badTimeValues
  else none

/-- The checks of `validateHeader` that follow the `": "` split (source
lines 195-229), on the version part and the datetime part. -/
def validateVersionDateTime (version datetime : List Nat) : Option HeaderError :=
  if version.length < 4 ∨ version.getD 1 0 ≠ 46 ∨ 6 < version.length then
    some .badVersionFormat
  else if goAtoi (version.take 1) = none then some .badMajorVersion
  else if goAtoi (version.drop 2) = none then some .badMinorVersion
  else if datetime.length ≠ 19 then some .badDateTimeLength
  else
    let q := splitFirst [32] datetime
    if q = none then some .badDateTimeSplit
    else validateDateTime (q.getD ([], [])).1 (q.getD ([], [])).2

/-- `validateHeader`: `none` means the header is valid; otherwise the
first failing rule, in source order. -/
def validateHeader (input : List Nat) : Option HeaderError :=
  if [73, 77, 68, 32] <+: input then
    let sp := splitFirst [58, 32] (input.drop 4)
    if sp = none then some .missingSeparator
    else validateVersionDateTime (sp.getD ([], [])).1 (sp.getD ([], [])).2
  else some .noIMDPrefix

/-- One physical track's metadata and contents (struct `Track`).  The Go
nil-slice value of the two optional maps is modelled as `none`; the nil
entries of `SectorDataRecords` (absent sectors) as `none`. -/
structure Track where
  ModeValue : Nat
  Cylinder : Nat
  Head : Nat
  NumberOfSectors : Nat
  SectorSize : Nat
  SectorNumberingMap : List Nat
  SectorCylinderMap : Option (List Nat)
  SectorHeadMap : Option (List Nat)
  SectorDataRecords : List (Option (List Nat))
deriving DecidableEq, Repr

/-- The decode result (struct `File`). -/
structure File where
  Header : Header
  Comment : List Nat
  Tracks : List Track
deriving DecidableEq, Repr

/-- Errors `Decode` can return: an io error (io.EOF under the
`bytes.Reader` model) or a header-validation error. -/
inductive DecodeError where
  | eof
  | header (e : HeaderError)
deriving DecidableEq, Repr

/-- `sectorCylinderMapMask` (1 shifted left by 6). -/
def sectorCylinderMapMask : Nat := 64

/-- `sectorHeadMapMask` (1 shifted left by 7). -/
def sectorHeadMapMask : Nat := 128

/-- An optional `N`-byte map read, guarded by a head-byte flag, as in the
two conditional map reads of `Decode`. -/
def readOptMap (cond : Prop) [Decidable cond] (n : Nat) (s : List Nat) :
    Option (Option (List Nat) × List Nat) :=
  if cond then (readBuf n s).map (fun p => (some p.1, p.2))
  else some (none, s)

/-- The per-sector loop of `Decode` (lines 101-125 of the source): for
each of `n` slots read a discriminant byte and decode the record.  The
`switch` has no default case, so a discriminant outside 0..8 leaves the
slot nil and continues. -/
def decodeSectors : Nat → Nat → List Nat → Option (List (Option (List Nat)) × List Nat)
  | 0, _, s => some ([], s)
  | n + 1, size, s =>
    match readByte s with
    | none => none
    | some (record, s1) =>
      if record = 0 then
        (decodeSectors n size s1).map (fun p => (none :: p.1, p.2))
      else if record = 1 ∨ record = 3 ∨ record = 5 ∨ record = 7 then
        match readBuf size s1 with
        | none => none
        | some (buf, s2) =>
          (decodeSectors n size s2).map (fun p => (some buf :: p.1, p.2))
      else if record = 2 ∨ record = 4 ∨ record = 6 ∨ record = 8 then
        match readByte s1 with
        | none => none
        | some (v, s2) =>
          (decodeSectors n size s2).map
            (fun p => (some (List.replicate size v) :: p.1, p.2))
      else
        (decodeSectors n size s1).map (fun p => (none :: p.1, p.2))

/-- The body of one track record after its mode byte (lines 63-137 of the
source): cylinder, head, sector count, sector size, numbering map, the
two flag-guarded maps, then the sector records. -/
def decodeTrackBody (modeValue : Nat) (s : List Nat) : Option (Track × List Nat) :=
  match readByte s with
  | none => none
  | some (cylinder, s1) =>
    match readByte s1 with
    | none => none
    | some (head, s2) =>
      match readByte s2 with
      | none => none
      | some (numberOfSectors, s3) =>
        match readByte s3 with
        | none => none
        | some (sectorSize, s4) =>
          match readBuf numberOfSectors s4 with
          | none => none
          | some (sectorNumberingMap, s5) =>
            match readOptMap (head &&& sectorCylinderMapMask ≠ 0) numberOfSectors s5 with
            | none => none
            | some (sectorCylinderMap, s6) =>
              match readOptMap (head &&& sectorHeadMapMask ≠ 0) numberOfSectors s6 with
              | none => none
              | some (sectorHeadMap, s7) =>
                match decodeSectors numberOfSectors sectorSize s7 with
                | none => none
                | some (sectorDataRecords, s8) =>
                  some (⟨modeValue, cylinder, head, numberOfSectors, sectorSize,
                         sectorNumberingMap, sectorCylinderMap, sectorHeadMap,
                         sectorDataRecords⟩, s8)

/-- The track loop of `Decode` (lines 58-139): a failed mode-byte read is
the clean end of input; otherwise one track body is decoded and the loop
exits unconditionally (`break` after the append). -/
def decodeTracks (f : File) (s : List Nat) : File × Option DecodeError :=
  match readByte s with
  | none => (f, none)
  | some (modeValue, s1) =>
    match decodeTrackBody modeValue s1 with
    | none => (f, some .eof)
    | some (track, _) => ({ f with Tracks := f.Tracks ++ [track] }, none)

/-- `Decode`: 29-byte header read, validation, sentinel-terminated
comment, then the track loop.  Mirrors the partial-`File`-with-error
returns of the source. -/
def Decode (s : List Nat) : File × Option DecodeError :=
  match readBuf 29 s with
  | none => (⟨[], [], []⟩, some .eof)
  | some (hdr, s1) =>
    match validateHeader hdr with
    | some e => (⟨hdr, [], []⟩, some (.header e))
    | none =>
      let r := readStringASCIIEOF s1
      if r.2.2 = false then (⟨hdr, r.1, []⟩, some .eof)
      else decodeTracks ⟨hdr, r.1, []⟩ r.2.1

/-- The byte sequence of the valid header `IMD 1.18: 15/03/2021 10:30:00`,
used as the header of the concrete streams below. -/
def exHdr : List Nat :=
  [73, 77, 68, 32, 49, 46, 49, 56, 58, 32,
   49, 53, 47, 48, 51, 47, 50, 48, 50, 49, 32,
   49, 48, 58, 51, 48, 58, 48, 48]

/-! ### Helper lemmas -/

lemma readBuf_length {n : Nat} {s b t : List Nat} (h : readBuf n s = some (b, t)) :
    b.length = n := by
  unfold readBuf at h
  split at h
  · exact absurd h (by simp)
  · rename_i hne
    injection h with h
    injection h with hb ht
    subst hb
    have hs : s.length ≠ 0 := by
      intro h0
      exact hne (List.length_eq_zero.mp h0)
    simp [List.length_take]
    omega

lemma readBuf_rest {n : Nat} {s b t : List Nat} (h : readBuf n s = some (b, t)) :
    t = s.drop n := by
  unfold readBuf at h
  split at h
  · exact absurd h (by simp)
  · injection h with h
    injection h with hb ht
    exact ht.symm

lemma spec_cons_aux {k size : Nat} (x : Option (List Nat))
    (hx : ∀ buf, x = some buf → buf.length = size)
    {recs1 : List (Option (List Nat))} (hl : recs1.length = k)
    (hm : ∀ r ∈ recs1, ∀ buf, r = some buf → buf.length = size) :
    (x :: recs1).length = k + 1 ∧
      ∀ r ∈ x :: recs1, ∀ buf, r = some buf → buf.length = size := by
  refine ⟨by simp [hl], ?_⟩
  intro r hrm buf hbuf
  rcases List.mem_cons.mp hrm with rfl | hmem
  · exact hx buf hbuf
  · exact hm r hmem buf hbuf

lemma decodeSectors_spec :
    ∀ (n size : Nat) (s : List Nat) (recs : List (Option (List Nat))) (t : List Nat),
      decodeSectors n size s = some (recs, t) →
      recs.length = n ∧ ∀ r ∈ recs, ∀ buf, r = some buf → buf.length = size := by
  intro n
  induction n with
  | zero =>
    intro size s recs t h
    simp only [decodeSectors, Option.some.injEq, Prod.mk.injEq] at h
    obtain ⟨rfl, rfl⟩ := h
    simp
  | succ k ih =>
    intro size s recs t h
    simp only [decodeSectors] at h
    split at h
    · exact absurd h (by simp)
    rename_i record s1 hrb
    split at h
    · rcases hrec : decodeSectors k size s1 with _ | ⟨recs1, t1⟩ <;> rw [hrec] at h
      · exact absurd h (by simp)
      rw [Option.map_some'] at h
      injection h with h
      injection h with h1 h2
      subst h1
      obtain ⟨hl, hm⟩ := ih size s1 recs1 t1 hrec
      exact spec_cons_aux none (by simp) hl hm
    split at h
    · split at h
      · exact absurd h (by simp)
      rename_i buf0 s2 hbuf0
      rcases hrec : decodeSectors k size s2 with _ | ⟨recs1, t1⟩ <;> rw [hrec] at h
      · exact absurd h (by simp)
      rw [Option.map_some'] at h
      injection h with h
      injection h with h1 h2
      subst h1
      obtain ⟨hl, hm⟩ := ih size s2 recs1 t1 hrec
      exact spec_cons_aux (some buf0)
        (fun buf hb => (Option.some.inj hb) ▸ readBuf_length hbuf0) hl hm
    split at h
    · split at h
      · exact absurd h (by simp)
      rename_i v s2 hv
      rcases hrec : decodeSectors k size s2 with _ | ⟨recs1, t1⟩ <;> rw [hrec] at h
      · exact absurd h (by simp)
      rw [Option.map_some'] at h
      injection h with h
      injection h with h1 h2
      subst h1
      obtain ⟨hl, hm⟩ := ih size s2 recs1 t1 hrec
      exact spec_cons_aux (some (List.replicate size v))
        (fun buf hb => (Option.some.inj hb) ▸ (by simp)) hl hm
    · rcases hrec : decodeSectors k size s1 with _ | ⟨recs1, t1⟩ <;> rw [hrec] at h
      · exact absurd h (by simp)
      rw [Option.map_some'] at h
      injection h with h
      injection h with h1 h2
      subst h1
      obtain ⟨hl, hm⟩ := ih size s1 recs1 t1 hrec
      exact spec_cons_aux none (by simp) hl hm

lemma readByte_some {s : List Nat} {b : Nat} {t : List Nat}
    (h : readByte s = some (b, t)) : s = b :: t := by
  cases s with
  | nil => simp [readByte] at h
  | cons c u =>
    simp only [readByte, Option.some.injEq, Prod.mk.injEq] at h
    obtain ⟨rfl, rfl⟩ := h
    rfl

lemma readOptMap_some_length {cond : Prop} [Decidable cond] {n : Nat} {s : List Nat}
    {om : Option (List Nat)} {t : List Nat}
    (h : readOptMap cond n s = some (om, t)) :
    ∀ x, om = some x → x.length = n := by
  unfold readOptMap at h
  split at h
  · rcases hb : readBuf n s with _ | ⟨b, r⟩ <;> rw [hb] at h
    · exact absurd h (by simp)
    · rw [Option.map_some'] at h
      injection h with h
      injection h with h1 h2
      subst h1
      intro x hx
      obtain rfl := Option.some.inj hx
      exact readBuf_length hb
  · injection h with h
    injection h with h1 h2
    subst h1
    intro x hx
    exact absurd hx (by simp)

lemma decodeTrackBody_fields (m : Nat) (s : List Nat) (tr : Track) (u : List Nat)
    (h : decodeTrackBody m s = some (tr, u)) :
    ∃ c hd n sz s4, s = c :: hd :: n :: sz :: s4 ∧
      tr.ModeValue = m ∧ tr.Cylinder = c ∧ tr.Head = hd ∧
      tr.NumberOfSectors = n ∧ tr.SectorSize = sz ∧
      tr.SectorNumberingMap.length = n ∧
      (∀ cm, tr.SectorCylinderMap = some cm → cm.length = n) ∧
      (∀ hm, tr.SectorHeadMap = some hm → hm.length = n) ∧
      tr.SectorDataRecords.length = n ∧
      (∀ r ∈ tr.SectorDataRecords, ∀ buf, r = some buf → buf.length = sz) := by
  rcases s with _ | ⟨c, s⟩
  · simp [decodeTrackBody, readByte] at h
  rcases s with _ | ⟨hd, s⟩
  · simp [decodeTrackBody, readByte] at h
  rcases s with _ | ⟨n, s⟩
  · simp [decodeTrackBody, readByte] at h
  rcases s with _ | ⟨sz, s⟩
  · simp [decodeTrackBody, readByte] at h
  simp only [decodeTrackBody, readByte] at h
  split at h
  · exact absurd h (by simp)
  rename_i map s5 hmap
  split at h
  · exact absurd h (by simp)
  rename_i cmO s6 hcm
  split at h
  · exact absurd h (by simp)
  rename_i hmO s7 hhm
  split at h
  · exact absurd h (by simp)
  rename_i recs s8 hsec
  injection h with h
  injection h with h1 h2
  subst h1
  obtain ⟨hl, hb⟩ := decodeSectors_spec n sz s7 recs s8 hsec
  exact ⟨c, hd, n, sz, s, rfl, rfl, rfl, rfl, rfl, rfl, readBuf_length hmap,
    readOptMap_some_length hcm, readOptMap_some_length hhm, hl, hb⟩

lemma readString_append (T rest : List Nat) (hT : ∀ b ∈ T, b ≠ 26) :
    readStringASCIIEOF (T ++ 26 :: rest) = (T, rest, true) := by
  induction T with
  | nil => simp [readStringASCIIEOF]
  | cons c t ih =>
    have hc : c ≠ 26 := hT c (by simp)
    have ih2 := ih (fun b hb => hT b (by simp [hb]))
    simp [readStringASCIIEOF, hc, ih2]

lemma readString_noSentinel (s : List Nat) (hs : ∀ b ∈ s, b ≠ 26) :
    readStringASCIIEOF s = (s, [], false) := by
  induction s with
  | nil => simp [readStringASCIIEOF]
  | cons c t ih =>
    have hc : c ≠ 26 := hs c (by simp)
    have ih2 := ih (fun b hb => hs b (by simp [hb]))
    simp [readStringASCIIEOF, hc, ih2]

lemma readString_rest_subset :
    ∀ (s : List Nat) (b : Nat), b ∈ (readStringASCIIEOF s).2.1 → b ∈ s := by
  intro s
  induction s with
  | nil => simp [readStringASCIIEOF]
  | cons c t ih =>
    intro b hb
    by_cases hc : c = 26
    · subst hc
      simp only [readStringASCIIEOF, if_pos rfl] at hb
      exact List.mem_cons_of_mem 26 hb
    · simp only [readStringASCIIEOF, if_neg hc] at hb
      exact List.mem_cons_of_mem c (ih b hb)

/-! ### Claim theorems -/

/-- C1: the claim says a stream with K independently-valid track records
decodes to K tracks in stream order.  The code contradicts it: its track
loop exits unconditionally after one track.  The stream below holds a
valid header, an empty comment and two identical, independently-valid
track records, yet `Decode` returns exactly one track and no error (the
second conjunct checks that one such record is independently valid on its
own). -/
theorem Decode_two_records_single_track :
    Decode (exHdr ++ 26 :: ([0, 0, 0, 1, 1, 9, 0] ++ [0, 0, 0, 1, 1, 9, 0])) =
      (⟨exHdr, [], [⟨0, 0, 0, 1, 1, [9], none, none, [none]⟩]⟩, none) ∧
    (Decode (exHdr ++ 26 :: ([0, 0, 0, 1, 1, 9, 0] ++ [0, 0, 0, 1, 1, 9, 0]))).1.Tracks.length = 1 ∧
    decodeTrackBody 0 [0, 0, 1, 1, 9, 0] =
      some (⟨0, 0, 0, 1, 1, [9], none, none, [none]⟩, []) :=
  ⟨by decide, by decide, by decide⟩

/-- C2 counterexample: the claim says a sector discriminant byte outside
0..8 aborts `Decode` with an unrecognized-discriminant error.  In this
stream the single sector's discriminant is 9, yet `Decode` returns no
error at all (the source `switch` has no default case): the slot is left
absent and the track is completed normally. -/
theorem Decode_unknown_discriminant_no_error :
    Decode (exHdr ++ 26 :: [0, 0, 0, 1, 4, 7, 9]) =
      (⟨exHdr, [], [⟨0, 0, 0, 1, 4, [7], none, none, [none]⟩]⟩, none) := by decide

/-- C2 amended: a discriminant byte outside 0..8 is silently treated like
an unavailable sector: the slot's payload is absent, no further bytes are
consumed for it, and decoding continues with no error. -/
theorem decodeSectors_unknown_discriminant_skipped (k size d : Nat) (s : List Nat)
    (hd : 9 ≤ d) :
    decodeSectors (k + 1) size (d :: s) =
      (decodeSectors k size s).map (fun p => (none :: p.1, p.2)) := by
  have h0 : ¬d = 0 := by omega
  have h1 : ¬(d = 1 ∨ d = 3 ∨ d = 5 ∨ d = 7) := by omega
  have h2 : ¬(d = 2 ∨ d = 4 ∨ d = 6 ∨ d = 8) := by omega
  simp [decodeSectors, readByte, h0, h1, h2]

/-- C2 amended, witness at discriminant 9. -/
theorem decodeSectors_unknown_discriminant_skipped_witness :
    decodeSectors 1 3 (9 :: [5]) =
      (decodeSectors 0 3 [5]).map (fun p => (none :: p.1, p.2)) :=
  decodeSectors_unknown_discriminant_skipped 0 3 9 [5] (by decide)

/-- C6: the comment reader maps any ASCII text free of the sentinel 0x1A,
followed by the sentinel, to exactly that text (sentinel consumed but
excluded), and returns an error when the stream ends before any
sentinel. -/
theorem readStringASCIIEOF_comment_roundtrip (T rest s : List Nat)
    (hascii : ∀ b ∈ T, b < 128) (hT : ∀ b ∈ T, b ≠ 26) (hs : ∀ b ∈ s, b ≠ 26) :
    readStringASCIIEOF (T ++ 26 :: rest) = (T, rest, true) ∧
    readStringASCIIEOF s = (s, [], false) :=
  ⟨readString_append T rest hT, readString_noSentinel s hs⟩

/-- C6 witness. -/
theorem readStringASCIIEOF_comment_roundtrip_witness :
    readStringASCIIEOF ([72, 105] ++ 26 :: [3, 4]) = ([72, 105], [3, 4], true) ∧
    readStringASCIIEOF [65, 66] = ([65, 66], [], false) :=
  readStringASCIIEOF_comment_roundtrip [72, 105] [3, 4] [65, 66]
    (by decide) (by decide) (by decide)

/-- C7: a sector slot with discriminant 2 followed by one fill byte `v`,
in a track of declared sector size `size`, decodes to a present payload
`List.replicate size v`: a buffer of exactly `size` bytes, each equal to
`v`; decoding then continues with the remaining slots. -/
theorem decodeSectors_compressed_fill (k size v : Nat) (s : List Nat) :
    decodeSectors (k + 1) size (2 :: v :: s) =
      (decodeSectors k size s).map
        (fun p => (some (List.replicate size v) :: p.1, p.2)) ∧
    (List.replicate size v).length = size ∧
    (∀ b ∈ List.replicate size v, b = v) := by
  refine ⟨?_, by simp, fun b hb => List.eq_of_mem_replicate hb⟩
  simp [decodeSectors, readByte]

/-- C8: replacing a sector's discriminant byte by another member of the
same group — {1,3,5,7} verbatim or {2,4,6,8} compressed — leaves the
sector decoding (and hence the whole decode result built from it)
unchanged; the `Track`/`File` model retains no deleted-mark or read-error
status anywhere. -/
theorem decodeSectors_group_invariance (k size d e : Nat) (s : List Nat)
    (h : ((d = 1 ∨ d = 3 ∨ d = 5 ∨ d = 7) ∧ (e = 1 ∨ e = 3 ∨ e = 5 ∨ e = 7)) ∨
         ((d = 2 ∨ d = 4 ∨ d = 6 ∨ d = 8) ∧ (e = 2 ∨ e = 4 ∨ e = 6 ∨ e = 8))) :
    decodeSectors (k + 1) size (d :: s) = decodeSectors (k + 1) size (e :: s) := by
  rcases h with ⟨hd, he⟩ | ⟨hd, he⟩ <;>
    rcases hd with rfl | rfl | rfl | rfl <;>
    rcases he with rfl | rfl | rfl | rfl <;>
    simp [decodeSectors, readByte]

/-- C8 witness: deleted-mark discriminant 3 and deleted+error 7 decode
identically. -/
theorem decodeSectors_group_invariance_witness :
    decodeSectors 1 4 (3 :: [9, 9, 9, 9, 0]) = decodeSectors 1 4 (7 :: [9, 9, 9, 9, 0]) :=
  decodeSectors_group_invariance 0 4 3 7 [9, 9, 9, 9, 0] (by decide)

/-- C10: the decoded `Track` stores the head byte exactly as read from
the stream — the map-presence flag bits 6 and 7 are not masked out. -/
theorem decodeTrackBody_head_raw (m c h : Nat) (rest : List Nat) (tr : Track)
    (u : List Nat) (hdec : decodeTrackBody m (c :: h :: rest) = some (tr, u)) :
    tr.Head = h ∧ tr.Cylinder = c := by
  obtain ⟨c2, hd2, n2, sz2, s42, hs, _, hc, hh, _⟩ :=
    decodeTrackBody_fields m _ tr u hdec
  injection hs with h1 hs
  injection hs with h2 hs
  subst h1
  subst h2
  exact ⟨hh, hc⟩

/-- C10 witness: a track whose head byte 192 has both flag bits set keeps
`Head = 192` verbatim. -/
theorem decodeTrackBody_head_raw_witness :
    Track.Head ⟨0, 5, 192, 1, 1, [9], some [7], some [8], [none]⟩ = 192 ∧
    Track.Cylinder ⟨0, 5, 192, 1, 1, [9], some [7], some [8], [none]⟩ = 5 :=
  decodeTrackBody_head_raw 0 5 192 [1, 1, 9, 7, 8, 0]
    ⟨0, 5, 192, 1, 1, [9], some [7], some [8], [none]⟩ [] (by decide)

/-- C5 counterexample: the claim says any short read inside a track body
(after the mode byte) makes `Decode` return an error.  Here the track
declares sector size 4 and discriminant 1 demands 4 literal bytes, but
only 2 remain: the read is short, yet `Decode` returns no error — the
payload is silently zero-padded (the source ignores the count returned by
`r.Read`). -/
theorem Decode_short_body_read_no_error :
    Decode (exHdr ++ 26 :: [0, 0, 0, 1, 4, 7, 1, 10, 20]) =
      (⟨exHdr, [], [⟨0, 0, 0, 1, 4, [7], none, none, [some [10, 20, 0, 0]]⟩]⟩, none) := by
  decide

/-- C5 amended: end-of-stream exactly before a would-be mode byte ends
`Decode` cleanly with the accumulated `File` (stated both for the whole
pipeline and for the track loop); a read that begins at an exhausted
stream inside a track body yields an error; but a read that still finds
at least one byte is satisfied and zero-padded, and does not by itself
signal an error. -/
theorem decode_eof_semantics (hdr cmt : List Nat) (f : File) (m n : Nat)
    (s u : List Nat)
    (hhl : hdr.length = 29) (hhv : validateHeader hdr = none)
    (hcmt : ∀ b ∈ cmt, b ≠ 26)
    (hlen : s.length ≤ 4) (hu1 : u ≠ []) (hu2 : u.length ≤ n) :
    Decode (hdr ++ (cmt ++ [26])) = (⟨hdr, cmt, []⟩, none) ∧
    decodeTracks f [] = (f, none) ∧
    decodeTrackBody m s = none ∧
    readBuf n u = some (u ++ List.replicate (n - u.length) 0, []) := by
  have hclean : ∀ g : File, decodeTracks g [] = (g, none) := by
    intro g
    simp [decodeTracks, readByte]
  refine ⟨?_, hclean f, ?_, ?_⟩
  · have hne : hdr ++ (cmt ++ [26]) ≠ [] := by
      intro habs
      have := congrArg List.length habs
      simp [hhl] at this
    have h1 : (hdr ++ (cmt ++ [26])).take 29 = hdr := by
      rw [← hhl]
      exact List.take_left hdr (cmt ++ [26])
    have h2 : (hdr ++ (cmt ++ [26])).drop 29 = cmt ++ [26] := by
      rw [← hhl]
      exact List.drop_left hdr (cmt ++ [26])
    have hrb : readBuf 29 (hdr ++ (cmt ++ [26])) = some (hdr, cmt ++ [26]) := by
      simp [readBuf, hne, h1, h2]
      omega
    have hrs : readStringASCIIEOF (cmt ++ [26]) = (cmt, [], true) :=
      readString_append cmt [] hcmt
    simp [Decode, hrb, hhv, hrs, hclean]
  · rcases s with _ | ⟨c, s⟩
    · simp [decodeTrackBody, readByte]
    rcases s with _ | ⟨hd, s⟩
    · simp [decodeTrackBody, readByte]
    rcases s with _ | ⟨n2, s⟩
    · simp [decodeTrackBody, readByte]
    rcases s with _ | ⟨sz, s⟩
    · simp [decodeTrackBody, readByte]
    have hs0 : s = [] := by simpa using hlen
    subst hs0
    simp [decodeTrackBody, readByte, readBuf]
  · simp [readBuf, hu1, List.take_of_length_le hu2, List.drop_eq_nil_of_le hu2]

/-- C5 amended, witness: a valid header plus comment `[72]` and nothing
after the sentinel decodes cleanly; a 2-byte track body errors; a 4-byte
read finding only 2 bytes is zero-padded without error. -/
theorem decode_eof_semantics_witness :
    Decode (exHdr ++ ([72] ++ [26])) = (⟨exHdr, [72], []⟩, none) ∧
    decodeTracks ⟨[], [], []⟩ [] = (⟨[], [], []⟩, none) ∧
    decodeTrackBody 0 [1, 2] = none ∧
    readBuf 4 [1, 2] = some ([1, 2] ++ List.replicate 2 0, []) :=
  decode_eof_semantics exHdr [72] ⟨[], [], []⟩ 0 4 [1, 2] [1, 2]
    (by decide) (by decide) (by decide) (by decide) (by decide) (by decide)

/-- C3: every `Track` that `Decode` appends to `File.Tracks` satisfies
the length invariants: the sector numbering map has length exactly `N`
(the sector-count byte), the cylinder and head maps, when present, have
length exactly `N`, the data-record sequence has length `N`, every
present data buffer has length exactly the sector-size byte, and `N` and
the sector size are in 0..255. -/
theorem Decode_track_invariants (s : List Nat) (hbytes : ∀ b ∈ s, b < 256) :
    ∀ tr ∈ (Decode s).1.Tracks,
      tr.SectorNumberingMap.length = tr.NumberOfSectors ∧
      (∀ cm, tr.SectorCylinderMap = some cm → cm.length = tr.NumberOfSectors) ∧
      (∀ hm, tr.SectorHeadMap = some hm → hm.length = tr.NumberOfSectors) ∧
      tr.SectorDataRecords.length = tr.NumberOfSectors ∧
      (∀ r ∈ tr.SectorDataRecords, ∀ buf, r = some buf → buf.length = tr.SectorSize) ∧
      tr.NumberOfSectors ≤ 255 ∧ tr.SectorSize ≤ 255 := by
  intro tr htr
  unfold Decode at htr
  split at htr
  · simp at htr
  rename_i hdr s1 hrb
  split at htr
  · simp at htr
  rename_i hhv
  by_cases hok : (readStringASCIIEOF s1).2.2 = false
  · rw [if_pos hok] at htr
    simp at htr
  rw [if_neg hok] at htr
  unfold decodeTracks at htr
  split at htr
  · simp at htr
  rename_i m s3 hmode
  split at htr
  · simp at htr
  rename_i track s4 hbody
  simp only [List.nil_append] at htr
  have htrk : tr = track := by
    rcases List.mem_cons.mp htr with h | h
    · exact h
    · exact absurd h (by simp)
  subst htrk
  obtain ⟨c, hd, n, sz, s5, hshape, _, _, _, hN, hSz, hNum, hCM, hHM, hLen, hBuf⟩ :=
    decodeTrackBody_fields m s3 tr s4 hbody
  have hsub : ∀ b ∈ s3, b ∈ s := by
    intro b hb
    have h1 : b ∈ (readStringASCIIEOF s1).2.1 := by
      rw [readByte_some hmode]
      exact List.mem_cons_of_mem m hb
    have h2 : b ∈ s1 := readString_rest_subset s1 b h1
    have h3 : s1 = s.drop 29 := readBuf_rest hrb
    exact List.drop_subset 29 s (h3 ▸ h2)
  have hn : n < 256 := hbytes n (hsub n (by simp [hshape]))
  have hsz : sz < 256 := hbytes sz (hsub sz (by simp [hshape]))
  rw [hN, hSz]
  exact ⟨hNum, hCM, hHM, hLen, hBuf, by omega, by omega⟩

/-- The single track decoded from the C3 witness stream: both optional
maps present and one present compressed data buffer. -/
def exTrC3 : Track :=
  ⟨0, 5, 192, 1, 4, [9], some [7], some [8], [some [77, 77, 77, 77]]⟩

/-- C3 witness: the invariants instantiated on the concrete track of a
stream whose single track has both optional maps and a present data
buffer. -/
theorem Decode_track_invariants_witness :
    exTrC3.SectorNumberingMap.length = exTrC3.NumberOfSectors ∧
    List.length [7] = exTrC3.NumberOfSectors ∧
    List.length [8] = exTrC3.NumberOfSectors ∧
    exTrC3.SectorDataRecords.length = exTrC3.NumberOfSectors ∧
    List.length [77, 77, 77, 77] = exTrC3.SectorSize ∧
    exTrC3.NumberOfSectors ≤ 255 ∧ exTrC3.SectorSize ≤ 255 := by
  have h := Decode_track_invariants (exHdr ++ 26 :: [0, 5, 192, 1, 4, 9, 7, 8, 2, 77])
    (by decide) exTrC3 (by decide)
  exact ⟨h.1, h.2.1 [7] rfl, h.2.2.1 [8] rfl, h.2.2.2.1,
    h.2.2.2.2.1 (some [77, 77, 77, 77]) (by decide) [77, 77, 77, 77] rfl,
    h.2.2.2.2.2.1, h.2.2.2.2.2.2⟩

lemma splitFirst_cons_pos {sep : List Nat} {x : Nat} {t : List Nat}
    (h : sep <+: (x :: t)) :
    splitFirst sep (x :: t) = some ([], (x :: t).drop sep.length) := by
  simp [splitFirst, h]

lemma splitFirst_cons_neg {sep : List Nat} {x : Nat} {t : List Nat}
    (h : ¬ sep <+: (x :: t)) :
    splitFirst sep (x :: t) = (splitFirst sep t).map (fun p => (x :: p.1, p.2)) := by
  simp [splitFirst, h]

lemma splitFirst_append (sep : List Nat) :
    ∀ (s a b : List Nat), splitFirst sep s = some (a, b) → s = a ++ sep ++ b := by
  intro s
  induction s with
  | nil => intro a b h; simp [splitFirst] at h
  | cons x t ih =>
    intro a b h
    by_cases hp : sep <+: (x :: t)
    · rw [splitFirst_cons_pos hp] at h
      injection h with h
      injection h with h1 h2
      subst h1
      obtain ⟨r, hr⟩ := hp
      rw [← hr] at h2 ⊢
      rw [List.drop_left] at h2
      subst h2
      simp
    · rw [splitFirst_cons_neg hp] at h
      rcases hrec : splitFirst sep t with _ | ⟨a1, b1⟩ <;> rw [hrec] at h
      · exact absurd h (by simp)
      · rw [Option.map_some'] at h
        injection h with h
        injection h with h1 h2
        subst h1
        subst h2
        simp [ih a1 b1 hrec]

lemma validateVersionDateTime_none_dtlen (version datetime : List Nat)
    (hval : validateVersionDateTime version datetime = none) :
    datetime.length = 19 := by
  by_contra hne
  simp only [validateVersionDateTime] at hval
  by_cases c1 : version.length < 4 ∨ version.getD 1 0 ≠ 46 ∨ 6 < version.length
  · rw [if_pos c1] at hval
    exact absurd hval (by simp)
  rw [if_neg c1] at hval
  by_cases c2 : goAtoi (version.take 1) = none
  · rw [if_pos c2] at hval
    exact absurd hval (by simp)
  rw [if_neg c2] at hval
  by_cases c3 : goAtoi (version.drop 2) = none
  · rw [if_pos c3] at hval
    exact absurd hval (by simp)
  rw [if_neg c3] at hval
  rw [if_pos hne] at hval
  exact absurd hval (by simp)

/-- C9: any 29-byte header accepted by `validateHeader` necessarily has a
version part of exactly 4 bytes — the validation's allowance of 5- or
6-byte versions is unreachable, because 29 bytes minus the 4-byte
signature and the 2-byte separator leave 25, of which the datetime part
must take exactly 19 — and consequently `Header.Version` returns exactly
the full version part and `Header.Time` parses exactly the full datetime
part. -/
theorem validateHeader_forces_version_length_four (h v dt : List Nat)
    (hlen : h.length = 29) (hval : validateHeader h = none)
    (hsplit : splitFirst [58, 32] (h.drop 4) = some (v, dt)) :
    v.length = 4 ∧ Header.Version h = v ∧ dt = h.drop 10 ∧
    Header.Time h = goParseDateTime dt := by
  by_cases hpre : [73, 77, 68, 32] <+: h
  case neg =>
    simp only [validateHeader] at hval
    rw [if_neg hpre] at hval
    exact absurd hval (by simp)
  simp only [validateHeader] at hval
  rw [if_pos hpre] at hval
  rw [hsplit] at hval
  rw [if_neg (show ¬((some (v, dt) : Option (List Nat × List Nat)) = none) by simp)]
    at hval
  have hdt19 : dt.length = 19 := validateVersionDateTime_none_dtlen _ _ hval
  have happ : h.drop 4 = v ++ [58, 32] ++ dt := splitFirst_append _ _ _ _ hsplit
  have hlen25 : (h.drop 4).length = 25 := by simp [List.length_drop, hlen]
  have hv4 : v.length = 4 := by
    rw [happ] at hlen25
    simp [List.length_append, hdt19] at hlen25
    omega
  have hdt10 : dt = h.drop 10 := by
    have e1 : (h.drop 4).drop 6 = h.drop 10 := by
      rw [List.drop_drop]
    have e2 : (v ++ [58, 32]).length = 6 := by simp [hv4]
    calc dt = ((v ++ [58, 32]) ++ dt).drop (v ++ [58, 32]).length :=
          (List.drop_left _ _).symm
      _ = ((v ++ [58, 32]) ++ dt).drop 6 := by rw [e2]
      _ = (h.drop 4).drop 6 := by rw [happ]
      _ = h.drop 10 := e1
  refine ⟨hv4, ?_, hdt10, ?_⟩
  · simp only [Header.Version]
    rw [happ, List.append_assoc, ← hv4, List.take_left]
  · simp only [Header.Time]
    rw [hdt10]

/-- C9 witness: the concrete header of the spec example. -/
theorem validateHeader_forces_version_length_four_witness :
    ([49, 46, 49, 56] : List Nat).length = 4 ∧
    Header.Version exHdr = [49, 46, 49, 56] ∧
    ([49, 53, 47, 48, 51, 47, 50, 48, 50, 49, 32, 49, 48, 58, 51, 48, 58, 48, 48] :
      List Nat) = exHdr.drop 10 ∧
    Header.Time exHdr = goParseDateTime
      [49, 53, 47, 48, 51, 47, 50, 48, 50, 49, 32, 49, 48, 58, 51, 48, 58, 48, 48] :=
  validateHeader_forces_version_length_four exHdr [49, 46, 49, 56]
    [49, 53, 47, 48, 51, 47, 50, 48, 50, 49, 32, 49, 48, 58, 51, 48, 58, 48, 48]
    (by decide) (by decide) (by decide)

/-- Two-digit zero-padded ASCII decimal rendering (for building canonical
headers). -/
def pad2 (n : Nat) : List Nat := [48 + n / 10, 48 + n % 10]

/-- Four-digit zero-padded ASCII decimal rendering. -/
def pad4 (n : Nat) : List Nat :=
  [48 + n / 1000, 48 + n / 100 % 10, 48 + n / 10 % 10, 48 + n % 10]

/-- A 29-byte header matching the canonical pattern
`IMD v.vv: dd/mm/yyyy hh:mm:ss`, built from its numeric components. -/
def mkCanonicalHeader (v1 v2 v3 d m y hh mi ss : Nat) : List Nat :=
  [73, 77, 68, 32, 48 + v1, 46, 48 + v2, 48 + v3, 58, 32] ++
    (pad2 d ++ [47] ++ pad2 m ++ [47] ++ pad4 y ++ [32] ++
     pad2 hh ++ [58] ++ pad2 mi ++ [58] ++ pad2 ss)

lemma daysIn_le_31 (m y : Nat) : daysIn m y ≤ 31 := by
  unfold daysIn
  split_ifs <;> omega

lemma not_prefix_pair {a b x : Nat} (t : List Nat) (hne : x ≠ a) :
    ¬ [a, b] <+: (x :: t) := by
  intro hp
  obtain ⟨u, hu⟩ := hp
  injection hu with h1 _
  exact hne h1.symm

lemma not_prefix_single {a x : Nat} (t : List Nat) (hne : x ≠ a) :
    ¬ [a] <+: (x :: t) := by
  intro hp
  obtain ⟨u, hu⟩ := hp
  injection hu with h1 _
  exact hne h1.symm

lemma splitFirst_colonspace_canonical (a b c : Nat) (rest : List Nat)
    (ha : a ≤ 9) (hb : b ≤ 9) (hc : c ≤ 9) :
    splitFirst [58, 32] ((48 + a) :: 46 :: (48 + b) :: (48 + c) :: 58 :: 32 :: rest) =
      some ([48 + a, 46, 48 + b, 48 + c], rest) := by
  rw [splitFirst_cons_neg (not_prefix_pair _ (by omega)),
      splitFirst_cons_neg (not_prefix_pair _ (by omega)),
      splitFirst_cons_neg (not_prefix_pair _ (by omega)),
      splitFirst_cons_neg (not_prefix_pair _ (by omega)),
      splitFirst_cons_pos ⟨rest, rfl⟩]
  rfl

lemma splitFirst_datetime_canonical (d m y : Nat) (timeL : List Nat) :
    splitFirst [32] ((48 + d / 10) :: (48 + d % 10) :: 47 :: (48 + m / 10) ::
        (48 + m % 10) :: 47 :: (48 + y / 1000) :: (48 + y / 100 % 10) ::
        (48 + y / 10 % 10) :: (48 + y % 10) :: 32 :: timeL) =
      some ([48 + d / 10, 48 + d % 10, 47, 48 + m / 10, 48 + m % 10, 47,
        48 + y / 1000, 48 + y / 100 % 10, 48 + y / 10 % 10, 48 + y % 10], timeL) := by
  rw [splitFirst_cons_neg (not_prefix_single _ (by omega)),
      splitFirst_cons_neg (not_prefix_single _ (by omega)),
      splitFirst_cons_neg (not_prefix_single _ (by omega)),
      splitFirst_cons_neg (not_prefix_single _ (by omega)),
      splitFirst_cons_neg (not_prefix_single _ (by omega)),
      splitFirst_cons_neg (not_prefix_single _ (by omega)),
      splitFirst_cons_neg (not_prefix_single _ (by omega)),
      splitFirst_cons_neg (not_prefix_single _ (by omega)),
      splitFirst_cons_neg (not_prefix_single _ (by omega)),
      splitFirst_cons_neg (not_prefix_single _ (by omega)),
      splitFirst_cons_pos ⟨timeL, rfl⟩]
  rfl

lemma goParseDate_canonical (d m y : Nat)
    (hm1 : 1 ≤ m) (hm2 : m ≤ 12) (hd1 : 1 ≤ d) (hd2 : d ≤ daysIn m y)
    (hy : y ≤ 9999) :
    goParseDate [48 + d / 10, 48 + d % 10, 47, 48 + m / 10, 48 + m % 10, 47,
      48 + y / 1000, 48 + y / 100 % 10, 48 + y / 10 % 10, 48 + y % 10] =
      some (d, m, y) := by
  have hd31 : d ≤ 31 := le_trans hd2 (daysIn_le_31 m y)
  have em : (48 + m / 10 - 48) * 10 + (48 + m % 10 - 48) = m := by omega
  have ed : (48 + d / 10 - 48) * 10 + (48 + d % 10 - 48) = d := by omega
  have ey : (((48 + y / 1000 - 48) * 10 + (48 + y / 100 % 10 - 48)) * 10 +
      (48 + y / 10 % 10 - 48)) * 10 + (48 + y % 10 - 48) = y := by omega
  simp only [goParseDate, em, ed, ey]
  rw [if_pos ⟨trivial, trivial, by omega⟩]
  rw [if_pos ⟨hm1, hm2, hd1, hd2⟩]

lemma goParseTime8_canonical (hh mi ss : Nat)
    (h1 : hh ≤ 23) (h2 : mi ≤ 59) (h3 : ss ≤ 59) :
    goParseTime8 [48 + hh / 10, 48 + hh % 10, 58, 48 + mi / 10, 48 + mi % 10, 58,
      48 + ss / 10, 48 + ss % 10] = some (hh, mi, ss) := by
  have e1 : (48 + hh / 10 - 48) * 10 + (48 + hh % 10 - 48) = hh := by omega
  have e2 : (48 + mi / 10 - 48) * 10 + (48 + mi % 10 - 48) = mi := by omega
  have e3 : (48 + ss / 10 - 48) * 10 + (48 + ss % 10 - 48) = ss := by omega
  simp only [goParseTime8, e1, e2, e3]
  rw [if_pos ⟨trivial, trivial, by omega⟩]
  rw [if_pos ⟨h1, h2, h3⟩]

lemma goParseDateTime_canonical (d m y hh mi ss : Nat)
    (hm1 : 1 ≤ m) (hm2 : m ≤ 12) (hd1 : 1 ≤ d) (hd2 : d ≤ daysIn m y)
    (hy : y ≤ 9999) (h1 : hh ≤ 23) (h2 : mi ≤ 59) (h3 : ss ≤ 59) :
    goParseDateTime [48 + d / 10, 48 + d % 10, 47, 48 + m / 10, 48 + m % 10, 47,
      48 + y / 1000, 48 + y / 100 % 10, 48 + y / 10 % 10, 48 + y % 10, 32,
      48 + hh / 10, 48 + hh % 10, 58, 48 + mi / 10, 48 + mi % 10, 58,
      48 + ss / 10, 48 + ss % 10] = some ⟨y, m, d, hh, mi, ss⟩ := by
  have hd31 : d ≤ 31 := le_trans hd2 (daysIn_le_31 m y)
  have em : (48 + m / 10 - 48) * 10 + (48 + m % 10 - 48) = m := by omega
  have ed : (48 + d / 10 - 48) * 10 + (48 + d % 10 - 48) = d := by omega
  have ey : (((48 + y / 1000 - 48) * 10 + (48 + y / 100 % 10 - 48)) * 10 +
      (48 + y / 10 % 10 - 48)) * 10 + (48 + y % 10 - 48) = y := by omega
  have e1 : (48 + hh / 10 - 48) * 10 + (48 + hh % 10 - 48) = hh := by omega
  have e2 : (48 + mi / 10 - 48) * 10 + (48 + mi % 10 - 48) = mi := by omega
  have e3 : (48 + ss / 10 - 48) * 10 + (48 + ss % 10 - 48) = ss := by omega
  simp only [goParseDateTime, em, ed, ey, e1, e2, e3]
  rw [if_pos ⟨trivial, trivial, trivial, trivial, trivial, by omega⟩]
  rw [if_pos ⟨hm1, hm2, hd1, hd2, h1, h2, h3⟩]


lemma goAtoi_one_digit (a : Nat) (ha : a ≤ 9) : goAtoi [48 + a] ≠ none := by
  intro h
  simp only [goAtoi] at h
  rw [if_neg (show ¬(48 + a = 43) by omega),
      if_neg (show ¬(48 + a = 45) by omega),
      if_pos (show allDigits [48 + a] = true by simp [allDigits]; omega)] at h
  exact absurd h (by simp)

lemma goAtoi_two_digits (a b : Nat) (ha : a ≤ 9) (hb : b ≤ 9) :
    goAtoi [48 + a, 48 + b] ≠ none := by
  intro h
  simp only [goAtoi] at h
  rw [if_neg (show ¬(48 + a = 43) by omega),
      if_neg (show ¬(48 + a = 45) by omega),
      if_pos (show allDigits [48 + a, 48 + b] = true by simp [allDigits]; omega)] at h
  exact absurd h (by simp)

lemma validateVersionDateTime_ok (version datetime date timeStr : List Nat)
    (h1 : version.length = 4) (h2 : version.getD 1 0 = 46)
    (h3 : goAtoi (version.take 1) ≠ none) (h4 : goAtoi (version.drop 2) ≠ none)
    (h5 : datetime.length = 19)
    (h6 : splitFirst [32] datetime = some (date, timeStr))
    (h7 : ¬ (32 ∈ timeStr))
    (h8 : date.length = 10) (h9 : date.getD 2 0 = 47) (h10 : date.getD 5 0 = 47)
    (h11 : goParseDate date ≠ none)
    (h12 : timeStr.length = 8) (h13 : timeStr.getD 2 0 = 58)
    (h14 : timeStr.getD 5 0 = 58)
    (h15 : goParseTime8 timeStr ≠ none) :
    validateVersionDateTime version datetime = none := by
  simp only [validateVersionDateTime]
  rw [if_neg (show ¬(version.length < 4 ∨ version.getD 1 0 ≠ 46 ∨ 6 < version.length)
        by rw [h1, h2]; simp)]
  rw [if_neg h3, if_neg h4]
  rw [if_neg (show ¬(datetime.length ≠ 19) by rw [h5]; simp)]
  rw [h6]
  rw [if_neg (show ¬((some (date, timeStr) : Option (List Nat × List Nat)) = none)
        by simp)]
  show validateDateTime date timeStr = none
  simp only [validateDateTime]
  rw [if_neg h7]
  rw [if_neg (show ¬(date.length ≠ 10 ∨ date.getD 2 0 ≠ 47 ∨ date.getD 5 0 ≠ 47)
        by rw [h8, h9, h10]; simp)]
  rw [if_neg h11]
  rw [if_neg (show ¬(timeStr.length ≠ 8 ∨ timeStr.getD 2 0 ≠ 58 ∨ timeStr.getD 5 0 ≠ 58)
        by rw [h12, h13, h14]; simp)]
  rw [if_neg h15]

lemma validateHeader_ok (input version datetime : List Nat)
    (hpre : [73, 77, 68, 32] <+: input)
    (hsp : splitFirst [58, 32] (input.drop 4) = some (version, datetime))
    (hrest : validateVersionDateTime version datetime = none) :
    validateHeader input = none := by
  simp only [validateHeader]
  rw [if_pos hpre, hsp]
  rw [if_neg (show ¬((some (version, datetime) : Option (List Nat × List Nat)) = none)
        by simp)]
  exact hrest

/-- C4: every 29-byte header matching the canonical pattern
`IMD v.vv: dd/mm/yyyy hh:mm:ss` (version digits `v1.v2 v3`, valid
calendar date `d/m/y`, valid 24-hour time `hh:mi:ss`) passes
`validateHeader`; `Header.Version` returns the embedded 4-byte version
substring and `Header.Time` returns the parsed calendar timestamp. -/
theorem validateHeader_canonical_ok (v1 v2 v3 d m y hh mi ss : Nat)
    (hv1 : v1 ≤ 9) (hv2 : v2 ≤ 9) (hv3 : v3 ≤ 9)
    (hm1 : 1 ≤ m) (hm2 : m ≤ 12) (hd1 : 1 ≤ d) (hd2 : d ≤ daysIn m y)
    (hy : y ≤ 9999) (hhh : hh ≤ 23) (hmi : mi ≤ 59) (hss : ss ≤ 59) :
    validateHeader (mkCanonicalHeader v1 v2 v3 d m y hh mi ss) = none ∧
    Header.Version (mkCanonicalHeader v1 v2 v3 d m y hh mi ss) =
      [48 + v1, 46, 48 + v2, 48 + v3] ∧
    Header.Time (mkCanonicalHeader v1 v2 v3 d m y hh mi ss) =
      some ⟨y, m, d, hh, mi, ss⟩ := by
  have e4 : (mkCanonicalHeader v1 v2 v3 d m y hh mi ss).drop 4 =
      (48 + v1) :: 46 :: (48 + v2) :: (48 + v3) :: 58 :: 32 :: [48 + d / 10, 48 + d % 10, 47, 48 + m / 10, 48 + m % 10, 47, 48 + y / 1000, 48 + y / 100 % 10, 48 + y / 10 % 10, 48 + y % 10, 32, 48 + hh / 10, 48 + hh % 10, 58, 48 + mi / 10, 48 + mi % 10, 58, 48 + ss / 10, 48 + ss % 10] := rfl
  have e10 : (mkCanonicalHeader v1 v2 v3 d m y hh mi ss).drop 10 = [48 + d / 10, 48 + d % 10, 47, 48 + m / 10, 48 + m % 10, 47, 48 + y / 1000, 48 + y / 100 % 10, 48 + y / 10 % 10, 48 + y % 10, 32, 48 + hh / 10, 48 + hh % 10, 58, 48 + mi / 10, 48 + mi % 10, 58, 48 + ss / 10, 48 + ss % 10] := rfl
  have hsp : splitFirst [58, 32] ((mkCanonicalHeader v1 v2 v3 d m y hh mi ss).drop 4) =
      some ([48 + v1, 46, 48 + v2, 48 + v3], [48 + d / 10, 48 + d % 10, 47, 48 + m / 10, 48 + m % 10, 47, 48 + y / 1000, 48 + y / 100 % 10, 48 + y / 10 % 10, 48 + y % 10, 32, 48 + hh / 10, 48 + hh % 10, 58, 48 + mi / 10, 48 + mi % 10, 58, 48 + ss / 10, 48 + ss % 10]) := by
    rw [e4]
    exact splitFirst_colonspace_canonical v1 v2 v3 _ hv1 hv2 hv3
  have hq : splitFirst [32] [48 + d / 10, 48 + d % 10, 47, 48 + m / 10, 48 + m % 10, 47, 48 + y / 1000, 48 + y / 100 % 10, 48 + y / 10 % 10, 48 + y % 10, 32, 48 + hh / 10, 48 + hh % 10, 58, 48 + mi / 10, 48 + mi % 10, 58, 48 + ss / 10, 48 + ss % 10] = some ([48 + d / 10, 48 + d % 10, 47, 48 + m / 10, 48 + m % 10, 47, 48 + y / 1000, 48 + y / 100 % 10, 48 + y / 10 % 10, 48 + y % 10], [48 + hh / 10, 48 + hh % 10, 58, 48 + mi / 10, 48 + mi % 10, 58, 48 + ss / 10, 48 + ss % 10]) :=
    splitFirst_datetime_canonical d m y [48 + hh / 10, 48 + hh % 10, 58, 48 + mi / 10, 48 + mi % 10, 58, 48 + ss / 10, 48 + ss % 10]
  refine ⟨?_, rfl, ?_⟩
  · refine validateHeader_ok _ [48 + v1, 46, 48 + v2, 48 + v3] [48 + d / 10, 48 + d % 10, 47, 48 + m / 10, 48 + m % 10, 47, 48 + y / 1000, 48 + y / 100 % 10, 48 + y / 10 % 10, 48 + y % 10, 32, 48 + hh / 10, 48 + hh % 10, 58, 48 + mi / 10, 48 + mi % 10, 58, 48 + ss / 10, 48 + ss % 10] ⟨_, rfl⟩ hsp ?_
    refine validateVersionDateTime_ok [48 + v1, 46, 48 + v2, 48 + v3] [48 + d / 10, 48 + d % 10, 47, 48 + m / 10, 48 + m % 10, 47, 48 + y / 1000, 48 + y / 100 % 10, 48 + y / 10 % 10, 48 + y % 10, 32, 48 + hh / 10, 48 + hh % 10, 58, 48 + mi / 10, 48 + mi % 10, 58, 48 + ss / 10, 48 + ss % 10] [48 + d / 10, 48 + d % 10, 47, 48 + m / 10, 48 + m % 10, 47, 48 + y / 1000, 48 + y / 100 % 10, 48 + y / 10 % 10, 48 + y % 10] [48 + hh / 10, 48 + hh % 10, 58, 48 + mi / 10, 48 + mi % 10, 58, 48 + ss / 10, 48 + ss % 10]
      rfl rfl ?_ ?_ rfl hq ?_ rfl rfl rfl ?_ rfl rfl rfl ?_
    · exact goAtoi_one_digit v1 hv1
    · exact goAtoi_two_digits v2 v3 hv2 hv3
    · intro hx
      simp at hx
      omega
    · rw [goParseDate_canonical d m y hm1 hm2 hd1 hd2 hy]
      simp
    · rw [goParseTime8_canonical hh mi ss hhh hmi hss]
      simp
  · show goParseDateTime ((mkCanonicalHeader v1 v2 v3 d m y hh mi ss).drop 10) =
      some ⟨y, m, d, hh, mi, ss⟩
    rw [e10]
    exact goParseDateTime_canonical d m y hh mi ss hm1 hm2 hd1 hd2 hy hhh hmi hss

/-- C4 witness: the spec example `IMD 1.18: 15/03/2021 10:30:00`. -/
theorem validateHeader_canonical_ok_witness :
    validateHeader (mkCanonicalHeader 1 1 8 15 3 2021 10 30 0) = none ∧
    Header.Version (mkCanonicalHeader 1 1 8 15 3 2021 10 30 0) = [49, 46, 49, 56] ∧
    Header.Time (mkCanonicalHeader 1 1 8 15 3 2021 10 30 0) =
      some ⟨2021, 3, 15, 10, 30, 0⟩ :=
  validateHeader_canonical_ok 1 1 8 15 3 2021 10 30 0
    (by decide) (by decide) (by decide) (by decide) (by decide) (by decide)
    (by decide) (by decide) (by decide) (by decide) (by decide)
